import Mathlib

/-!
Shallow embedding of `vllm/entrypoints/grpc/grpc_server.py` (the TGIS-style
gRPC text-generation service).  Python strings are modelled as `List Char`
(sequences of code points, matching Python `str` indexing/slicing/`len`)
except where only whole-string equality matters, where `String` is used.
Floating-point log-probability values are modelled as `Rat`: only their
ordering and equality are relevant to the service logic.  Python `dict`s of
token id to logprob entry are modelled as insertion-ordered association
lists (Python dicts preserve insertion order).  Calls that `context.abort`
or raise are modelled with `Except`/`Option`.
-/

namespace VllmGrpc

/-- Module-level constant `MAX_TOP_N_TOKENS = 10`. -/
def MAX_TOP_N_TOKENS : Nat := 10

/-- Module-level constant `MAX_STOP_SEQS = 6`. -/
def MAX_STOP_SEQS : Nat := 6

/-- Module-level constant `MAX_STOP_SEQ_LENGTH = 240`. -/
def MAX_STOP_SEQ_LENGTH : Nat := 240

/-- gRPC status codes used by this service when aborting a call. -/
inductive GrpcStatus where
  | INVALID_ARGUMENT
  | RESOURCE_EXHAUSTED
deriving DecidableEq, Repr

/-- The `StopReason` protobuf enum. -/
inductive StopReason where
  | NOT_FINISHED
  | MAX_TOKENS
  | TOKEN_LIMIT
  | EOS_TOKEN
  | STOP_SEQUENCE
  | TIME_LIMIT
  | CANCELLED
deriving DecidableEq, Repr

/-- `vllm.sequence.Logprob`: a logprob value plus an optional rank. -/
structure Logprob where
  logprob : Rat
  rank : Option Nat
deriving DecidableEq, Repr

/-- A Python `Dict[int, Logprob]` in insertion order (keys unique in a dict). -/
abbrev LogprobMap := List (Nat × Logprob)

/-- The value of `CompletionOutput.stop_reason`: the engine's structured stop
indicator, either the matched stop string or a stop token id.  `none` at the
`Option StopVal` layer is the natural end-of-sequence sentinel. -/
inductive StopVal where
  | str (s : String)
  | tok (t : Nat)
deriving DecidableEq, Repr

/-- `vllm.CompletionOutput`: one cumulative generation snapshot for one
sequence.  `has_stop_reason` models the `hasattr(output, "stop_reason")`
check in `_convert_reason`. -/
structure CompletionOutput where
  text : List Char
  token_ids : List Nat
  logprobs : Option (List (Option LogprobMap))
  finish_reason : Option String
  has_stop_reason : Bool
  stop_reason_attr : Option StopVal
deriving DecidableEq, Repr

/-- `vllm.RequestOutput`: engine result for one request at one point in time.
Only the fields read by this service are modelled. -/
structure RequestOutput where
  prompt : Option (List Char)
  prompt_token_ids : List Nat
  prompt_logprobs : Option (List (Option LogprobMap))
  outputs : List CompletionOutput
deriving DecidableEq, Repr

/-- The `ResponseOptions` protobuf message (proto3 defaults: false / 0). -/
structure ResponseOptions where
  input_text : Bool
  input_tokens : Bool
  generated_tokens : Bool
  token_logprobs : Bool
  token_ranks : Bool
  top_n_tokens : Nat
deriving DecidableEq, Repr

/-- The `DecodingMethod` protobuf enum. -/
inductive DecodingMethod where
  | GREEDY
  | SAMPLE
deriving DecidableEq, Repr

/-- The sampling sub-message of `Parameters`.  `seed` is an optional proto
field (`HasField("seed")` is modelled by `Option`). -/
structure SamplingOpts where
  temperature : Rat
  top_k : Int
  top_p : Rat
  typical_p : Rat
  seed : Option Nat
deriving DecidableEq, Repr

/-- The stopping sub-message of `Parameters`.  `min_new_tokens` is a signed
wire integer (the code floors it at 0); `include_stop_sequence` is an
optional proto field. -/
structure StoppingCriteria where
  max_new_tokens : Nat
  min_new_tokens : Int
  stop_sequences : List String
  time_limit_millis : Nat
  include_stop_sequence : Option Bool
deriving DecidableEq, Repr

/-- The decoding sub-message of `Parameters`.  `length_penalty` is an
optional proto message; only its presence (`HasField`) is inspected. -/
structure DecodingParams where
  length_penalty : Option Rat
  repetition_penalty : Rat
deriving DecidableEq, Repr

/-- The `Parameters` protobuf message. -/
structure Parameters where
  method : DecodingMethod
  sampling : SamplingOpts
  stopping : StoppingCriteria
  response : ResponseOptions
  decoding : DecodingParams
  truncate_input_tokens : Nat
deriving DecidableEq, Repr

/-- A logits-modifying strategy; only the typical-sampling warper is built. -/
inductive LogitsProcessor where
  | typical (mass : Rat)
deriving DecidableEq, Repr

/-- `vllm.SamplingParams`, restricted to the fields this service sets. -/
structure SamplingParams where
  logprobs : Option Nat
  prompt_logprobs : Option Nat
  max_tokens : Option Nat
  min_tokens : Nat
  temperature : Rat
  top_k : Int
  top_p : Rat
  seed : Option Nat
  repetition_penalty : Rat
  logits_processors : Option (List LogitsProcessor)
  stop : Option (List String)
  include_stop_str_in_output : Bool
  skip_special_tokens : Bool
deriving DecidableEq, Repr

/-- Server-side configuration read by the service: `self.max_max_new_tokens`,
`self.skip_special_tokens`, `self.default_include_stop_seqs` and
`self.config.max_model_len`. -/
structure ServiceConfig where
  max_max_new_tokens : Nat
  skip_special_tokens : Bool
  default_include_stop_seqs : Bool
  max_model_len : Nat
deriving DecidableEq, Repr

/-- One `TokenInfo.TopToken` protobuf entry. -/
structure TopToken where
  text : String
  logprob : Option Rat
deriving DecidableEq, Repr

/-- One `TokenInfo` protobuf entry; unset optional scalars are `none`. -/
structure TokenInfo where
  text : String
  logprob : Option Rat
  rank : Option Nat
  top_tokens : List TopToken
deriving DecidableEq, Repr

/-- The `GenerationResponse` protobuf message. -/
structure GenerationResponse where
  text : List Char
  generated_token_count : Nat
  stop_reason : StopReason
  stop_sequence : Option String
  input_token_count : Nat
  tokens : List TokenInfo
  input_tokens : List TokenInfo
  seed : Option Nat
deriving DecidableEq, Repr

/-- An empty `GenerationResponse()` (proto3 defaults). -/
def GenerationResponse.empty : GenerationResponse :=
  { text := [], generated_token_count := 0, stop_reason := .NOT_FINISHED,
    stop_sequence := none, input_token_count := 0, tokens := [],
    input_tokens := [], seed := none }

/-- `with_default` for numeric wire fields (falsy value = 0). -/
def withDefaultRat (value default : Rat) : Rat :=
  if value = 0 then default else value

/-- `with_default` for integer wire fields (falsy value = 0). -/
def withDefaultInt (value default : Int) : Int :=
  if value = 0 then default else value

/-- `TextGenerationService._convert_reason`: maps an engine finish condition
plus the token-limit/time-limit flags to a `StopReason` and an optional
matched stop sequence. -/
def convert_reason (output : CompletionOutput) (max_is_token_limit : Bool)
    (time_limit_reached : Bool) : StopReason × Option String :=
  match output.finish_reason with
  | none =>
    (if time_limit_reached then .TIME_LIMIT else .NOT_FINISHED, none)
  | some fr =>
    if fr = "length" then
      (if max_is_token_limit then .TOKEN_LIMIT else .MAX_TOKENS, none)
    else if fr = "stop" then
      if output.has_stop_reason then
        match output.stop_reason_attr with
        | none => (.EOS_TOKEN, none)
        | some (.str s) => (.STOP_SEQUENCE, some s)
        | some (.tok _) => (.STOP_SEQUENCE, none)
      else (.STOP_SEQUENCE, none)
    else if fr = "abort" then (.CANCELLED, none)
    else (.CANCELLED, none)

/-- Python dict lookup `logprobs[tid]` (keys are unique), `none` = `KeyError`. -/
def dictGet (m : LogprobMap) (k : Nat) : Option Logprob :=
  (m.find? (fun kv => kv.1 = k)).map (fun kv => kv.2)

/-- Stable insertion into a descending-sorted list: `x` is placed before
the first entry whose logprob is at most its own, so the entry inserted
first wins ties. -/
def insertTop (x : Nat × Logprob) : LogprobMap → LogprobMap
  | [] => [x]
  | y :: ys =>
    if y.2.logprob ≤ x.2.logprob then x :: y :: ys else y :: insertTop x ys

/-- `sorted(logprobs.items(), key=lambda item: item[1].logprob,
reverse=True)` — Python `sorted` is stable, and with `reverse=True` ties
keep insertion order; rendered as a stable insertion sort (folding from
the right, each entry is inserted before the entries that followed it). -/
def sortedItems (m : LogprobMap) : LogprobMap :=
  m.foldr insertTop []

/-- `sorted(...)[:top_n_tokens]`. -/
def topItems (m : LogprobMap) (top_n : Nat) : LogprobMap :=
  (sortedItems m).take top_n

/-- The `TokenInfo.TopToken` built for one sorted item. -/
def mkTopToken (tok : Nat → String) (include_logprobs : Bool)
    (item : Nat × Logprob) : TopToken :=
  { text := tok item.1,
    logprob := if include_logprobs then some item.2.logprob else none }

/-- One iteration of the loop body of `_convert_tokens` for one token id and
its (optional) logprob map.  `none` models the `KeyError` raised when the
map has no entry for the actual token while logprob/rank detail was
requested. -/
def convert_token (tok : Nat → String) (include_logprobs include_ranks : Bool)
    (top_n_tokens : Nat) (tid : Nat) (lpm? : Option LogprobMap) :
    Option TokenInfo :=
  match lpm? with
  | none => some { text := tok tid, logprob := none, rank := none,
                   top_tokens := [] }
  | some lpm =>
    let base : Option TokenInfo :=
      if include_logprobs || include_ranks then
        match dictGet lpm tid with
        | none => none
        | some lp =>
          some { text := tok tid,
                 logprob := if include_logprobs then some lp.logprob else none,
                 rank := if include_ranks then lp.rank else none,
                 top_tokens := [] }
      else some { text := tok tid, logprob := none, rank := none,
                  top_tokens := [] }
    base.map (fun info =>
      if top_n_tokens ≠ 0 then
        { info with top_tokens :=
            (topItems lpm top_n_tokens).map (mkTopToken tok include_logprobs) }
      else info)

/-- The loop of `_convert_tokens` once the offset slicing is done: walks the
token ids in parallel with the logprob-map list (`logprobs_list[i]`; a
too-short list would raise `IndexError`, modelled by `none`). -/
def convert_tokens_go (tok : Nat → String)
    (include_logprobs include_ranks : Bool) (top_n_tokens : Nat) :
    List Nat → List (Option LogprobMap) → Option (List TokenInfo)
  | [], _ => some []
  | _ :: _, [] => none
  | tid :: ids, lpm? :: lps => do
    let info ← convert_token tok include_logprobs include_ranks
      top_n_tokens tid lpm?
    let rest ← convert_tokens_go tok include_logprobs include_ranks
      top_n_tokens ids lps
    pure (info :: rest)

/-- `TextGenerationService._convert_tokens`: slices both sequences by the
start offset, then converts one `TokenInfo` per remaining token id. -/
def convert_tokens (tok : Nat → String)
    (include_logprobs include_ranks : Bool) (top_n_tokens : Nat)
    (token_ids : List Nat) (logprobs_list : Option (List (Option LogprobMap)))
    (token_start_offset : Nat) : Option (List TokenInfo) :=
  let ids := if token_start_offset ≠ 0 then token_ids.drop token_start_offset
             else token_ids
  let lps := if token_start_offset ≠ 0 then
               logprobs_list.map (fun l => l.drop token_start_offset)
             else logprobs_list
  match lps with
  | none => some (ids.map (fun tid =>
      ({ text := tok tid, logprob := none, rank := none,
         top_tokens := [] } : TokenInfo)))
  | some l => convert_tokens_go tok include_logprobs include_ranks
      top_n_tokens ids l

/-- `TextGenerationService._convert_output`: classifies the stop reason and
builds the (possibly delta) response for one snapshot. -/
def convert_output (tok : Nat → String) (output : CompletionOutput)
    (resp_options : ResponseOptions) (max_is_token_limit : Bool)
    (time_limit_reached : Bool) (text_start_offset token_start_offset : Nat) :
    Option GenerationResponse :=
  let rs := convert_reason output max_is_token_limit time_limit_reached
  let base : GenerationResponse :=
    { text := output.text.drop text_start_offset,
      generated_token_count := output.token_ids.length,
      stop_reason := rs.1, stop_sequence := rs.2,
      input_token_count := 0, tokens := [], input_tokens := [], seed := none }
  if resp_options.generated_tokens then
    (convert_tokens tok resp_options.token_logprobs resp_options.token_ranks
        resp_options.top_n_tokens output.token_ids output.logprobs
        token_start_offset).map
      (fun tis => { base with tokens := tis })
  else some base

/-- `TextGenerationService._convert_input_details`: adds the input token
count, optional input token details, optional prompt echo, and the seed to
a response.  Failure (`none`) models the exceptions the Python code would
raise (a `KeyError` in `_convert_tokens`, or using an absent prompt). -/
def convert_input_details (tok : Nat → String)
    (resp_options : ResponseOptions) (sampling_params : SamplingParams)
    (result : RequestOutput) (response : GenerationResponse) :
    Option GenerationResponse :=
  let r1 := { response with
              input_token_count := result.prompt_token_ids.length }
  let r2? : Option GenerationResponse :=
    if resp_options.input_tokens then
      (convert_tokens tok resp_options.token_logprobs
          resp_options.token_ranks resp_options.top_n_tokens
          result.prompt_token_ids result.prompt_logprobs 0).map
        (fun tis => { r1 with input_tokens := tis })
    else some r1
  r2?.bind (fun r2 =>
    (if resp_options.input_text then
       result.prompt.map (fun p =>
         { r2 with text := if r2.text = [] then p else p ++ r2.text })
     else some r2).map (fun r3 =>
      match sampling_params.seed with
      | some s => { r3 with seed := some s }
      | none => r3))

/-- In `_validate_and_convert_params`, the resolution `max_new_tokens = None
unless stopping.max_new_tokens > 0`. -/
def maxNewTokensOpt (stopping : StoppingCriteria) : Option Nat :=
  if stopping.max_new_tokens > 0 then some stopping.max_new_tokens else none

/-- `min_new_tokens = max(0, stopping.min_new_tokens)`. -/
def minNewTokensOf (stopping : StoppingCriteria) : Nat :=
  stopping.min_new_tokens.toNat

/-- The logprob count computed by `_validate_and_convert_params` and stored
via `with_default(logprobs, None)`: 1 if per-token logprobs or ranks are
requested else 0; plus `top_n_tokens` when top-N is requested, minus 1
when greedy and per-token logprobs were requested (the selected token's
logprob is otherwise double-counted against the top-N set); a zero count
becomes `None`.  The subtraction never truncates: it only fires when the
base is 1 and `top_n_tokens >= 1`. -/
def convertedLogprobs (params : Parameters) : Option Nat :=
  let resp_options := params.response
  let greedy : Bool := params.method == DecodingMethod.GREEDY
  let logprobs0 : Nat :=
    if resp_options.token_logprobs || resp_options.token_ranks then 1 else 0
  let logprobs1 : Nat :=
    if resp_options.top_n_tokens ≠ 0 then
      logprobs0 + resp_options.top_n_tokens -
        (if greedy && resp_options.token_logprobs then 1 else 0)
    else logprobs0
  if logprobs1 = 0 then none else some logprobs1

/-- `deadline = time.time() + time_limit_millis / 1000.0 if
time_limit_millis > 0 else None`. -/
def computeDeadline (stopping : StoppingCriteria) (now : Rat) : Option Rat :=
  if stopping.time_limit_millis > 0 then
    some (now + (stopping.time_limit_millis : Rat) / 1000)
  else none

/-- The `SamplingParams(...)` construction of
`_validate_and_convert_params` (reached only after all checks pass). -/
def buildSamplingParams (cfg : ServiceConfig) (params : Parameters) :
    SamplingParams :=
  let resp_options := params.response
  let sampling := params.sampling
  let stopping := params.stopping
  let greedy : Bool := params.method == DecodingMethod.GREEDY
  let logprobs := convertedLogprobs params
  -- to match TGIS, only including typical_p processing when sampling
  let logits_processors : Option (List LogitsProcessor) :=
    if greedy = false ∧ 0 < sampling.typical_p ∧ sampling.typical_p < 1
    then some [LogitsProcessor.typical sampling.typical_p]
    else none
  { logprobs := logprobs,
    prompt_logprobs := if resp_options.input_tokens then logprobs else none,
    max_tokens := maxNewTokensOpt stopping,
    min_tokens := minNewTokensOf stopping,
    temperature :=
      if greedy then 0 else withDefaultRat sampling.temperature 1,
    top_k := withDefaultInt sampling.top_k (-1),
    top_p := withDefaultRat sampling.top_p 1,
    seed := sampling.seed,
    repetition_penalty :=
      withDefaultRat params.decoding.repetition_penalty 1,
    logits_processors := logits_processors,
    stop := if stopping.stop_sequences = [] then none
            else some stopping.stop_sequences,
    include_stop_str_in_output :=
      stopping.include_stop_sequence.getD cfg.default_include_stop_seqs,
    skip_special_tokens := cfg.skip_special_tokens }

/-- `TextGenerationService._validate_and_convert_params`: validates the wire
parameters and builds `(SamplingParams, deadline)`.  A `ValueError` is
caught and turned into `context.abort(INVALID_ARGUMENT, ...)`, modelled as
`Except.error`.  `now` is the value of `time.time()`.  The Python
early-`raise` control flow is rendered as nested early-error conditionals
in source order; each conditional is the exact condition under which the
corresponding `raise` fires (`min_new_tokens > 0 and min_new_tokens >
bound` is the same as `min_new_tokens > bound` since the bounds are
non-negative). -/
def validate_and_convert_params (cfg : ServiceConfig) (params : Parameters)
    (now : Rat) : Except (GrpcStatus × String) (SamplingParams × Option Rat) :=
  let stopping := params.stopping
  if params.decoding.length_penalty.isSome then
    .error (.INVALID_ARGUMENT,
      "decoding.length_penalty parameter not yet supported")
  else if stopping.max_new_tokens > 0 ∧
      stopping.max_new_tokens > cfg.max_max_new_tokens then
    .error (.INVALID_ARGUMENT, "max_new_tokens must be <= the configured max")
  -- checked against max_new_tokens when given, else against the ceiling
  else if minNewTokensOf stopping >
      (maxNewTokensOpt stopping).getD cfg.max_max_new_tokens then
    .error (.INVALID_ARGUMENT, "min_new_tokens must be <= max_new_tokens")
  else if (stopping.stop_sequences ≠ [] ∧
      stopping.stop_sequences.length > MAX_STOP_SEQS) ∨
      ¬ (∀ ss ∈ stopping.stop_sequences,
          0 < ss.length ∧ ss.length ≤ MAX_STOP_SEQ_LENGTH) then
    .error (.INVALID_ARGUMENT,
      "can specify at most 6 non-empty stop sequences, each not more than 240 UTF8 bytes")
  else if params.response.top_n_tokens ≠ 0 ∧
      params.response.top_n_tokens > MAX_TOP_N_TOKENS then
    .error (.INVALID_ARGUMENT, "top_n_tokens must be <= 10")
  else
    .ok (buildSamplingParams cfg params, computeDeadline stopping now)

/-- `TextGenerationService._validate_prompt_and_tokenize`, after the external
tokenizer produced `input_ids`: rejects oversized prompts, then resolves
`sampling_params.max_tokens` against the context window.  Returns the
updated `SamplingParams` (the Python code mutates it in place) and the
`max_is_token_limit` flag. -/
def validate_prompt_and_tokenize (cfg : ServiceConfig)
    (sampling_params : SamplingParams) (input_ids : List Nat) :
    Except (GrpcStatus × String) (SamplingParams × Bool) :=
  let max_model_len := cfg.max_model_len
  let token_num := input_ids.length
  if token_num ≥ max_model_len then
    .error (.INVALID_ARGUMENT, "input tokens must be < max_model_len")
  else
    let min_new_tokens := sampling_params.min_tokens
    if token_num + min_new_tokens > max_model_len then
      .error (.INVALID_ARGUMENT,
        "input tokens plus min_new_tokens must be <= max_model_len")
    else
      match sampling_params.max_tokens with
      | none =>
        let resolved := min cfg.max_max_new_tokens (max_model_len - token_num)
        .ok ({ sampling_params with max_tokens := some resolved }, true)
      | some max_new_tokens =>
        if token_num + max_new_tokens > max_model_len then
          let clamped := max_model_len - token_num
          .ok ({ sampling_params with max_tokens := some clamped }, true)
        else
          .ok (sampling_params, false)

/-- State of the `GenerateStream` response loop between snapshots. -/
structure StreamState where
  first : Bool
  last_output_length : Nat
  last_token_count : Nat
deriving DecidableEq, Repr

/-- The `if first:` block of the `GenerateStream` loop body: on the first
snapshot only, build the input-details response (after setting
`result.prompt` to the request text) as a singleton emission. -/
def firstEmit (tok : Nat → String) (resp_options : ResponseOptions)
    (sampling_params : SamplingParams) (prompt : List Char)
    (st : StreamState) (result : RequestOutput) :
    Option (List GenerationResponse) :=
  if st.first then
    (convert_input_details tok resp_options sampling_params
      { result with prompt := some prompt } GenerationResponse.empty).map
      (fun fr => [fr])
  else some []

/-- The `async for result in result_generator` loop of
`TextGenerationService.GenerateStream`.  The engine stream is a list of
`(RequestOutput, time.time() at the deadline check)` pairs.  Returns the
emitted responses, the number of `engine.abort` calls issued, and the
number of snapshots consumed; `none` models an exception escaping the
loop body. -/
def generate_stream_go (tok : Nat → String) (resp_options : ResponseOptions)
    (sampling_params : SamplingParams) (prompt : List Char)
    (max_is_tok_limit : Bool) (deadline : Option Rat) :
    List (RequestOutput × Rat) → StreamState →
    Option (List GenerationResponse × Nat × Nat)
  | [], _ => some ([], 0, 0)
  | (result, now) :: rest, st => do
    let firstPart : List GenerationResponse ←
      firstEmit tok resp_options sampling_params prompt st result
    let output ← result.outputs.head?
    let time_limit_reached : Bool :=
      match deadline with
      | some d => decide (d ≤ now)
      | none => false
    let dresp ← convert_output tok output resp_options max_is_tok_limit
      time_limit_reached st.last_output_length st.last_token_count
    if time_limit_reached then
      -- one engine.abort, the delta is still yielded, then break
      pure (firstPart ++ [dresp], 1, 1)
    else do
      let (restEmits, restAborts, restConsumed) ←
        generate_stream_go tok resp_options sampling_params prompt
          max_is_tok_limit deadline rest
          { first := false, last_output_length := output.text.length,
            last_token_count := output.token_ids.length }
      pure (firstPart ++ dresp :: restEmits, restAborts, restConsumed + 1)

/-- `GenerateStream` from the first engine snapshot on (validation and
tokenization already done). -/
def generate_stream_run (tok : Nat → String) (resp_options : ResponseOptions)
    (sampling_params : SamplingParams) (prompt : List Char)
    (max_is_tok_limit : Bool) (deadline : Option Rat)
    (events : List (RequestOutput × Rat)) :
    Option (List GenerationResponse × Nat × Nat) :=
  generate_stream_go tok resp_options sampling_params prompt max_is_tok_limit
    deadline events
    { first := true, last_output_length := 0, last_token_count := 0 }

/-- The `async for i, res in result_generator` loop of
`TextGenerationService.Generate`: stores each merged snapshot under its
request index and, when a deadline is set, has passed, and `None not in
responses`, aborts every request index and breaks.  Events carry the
origin index, the snapshot, and `time.time()` at the deadline check.
Returns the response slots, the `time_limit_reached` flag, and the list of
indices for which `engine.abort` was called. -/
def generate_loop (deadline : Option Rat) (request_count : Nat) :
    List (Nat × RequestOutput × Rat) → List (Option RequestOutput) →
    List (Option RequestOutput) × Bool × List Nat
  | [], responses => (responses, false, [])
  | (i, res, now) :: rest, responses =>
    let responses := responses.set i (some res)
    if (match deadline with
        | some d => decide (d ≤ now)
        | none => false) && responses.all (fun r => r.isSome) then
      (responses, true, List.range request_count)
    else
      generate_loop deadline request_count rest responses

/-- The final assembly step of `Generate` for one request index:
`res.prompt = request.requests[i].text`, then `_convert_output` on
`res.outputs[0]`, then `_convert_input_details` on the same response. -/
def assemble_one (tok : Nat → String) (resp_options : ResponseOptions)
    (sampling_params : SamplingParams) (prompt : List Char)
    (max_is_token_limit : Bool) (time_limit_reached : Bool)
    (res : RequestOutput) : Option GenerationResponse := do
  let res := { res with prompt := some prompt }
  let output ← res.outputs.head?
  let response ← convert_output tok output resp_options max_is_token_limit
    time_limit_reached 0 0
  convert_input_details tok resp_options sampling_params res response

/-! ## Claim C3: stop-reason classification -/

/-- C3: `_convert_reason` maps: no finish condition to `TIME_LIMIT` when the
deadline was just hit and otherwise `NOT_FINISHED`; `"length"` to
`TOKEN_LIMIT` when the max-token bound was implicit and otherwise
`MAX_TOKENS`; `"stop"` to `STOP_SEQUENCE` with the matched string attached
unless the structured stop indicator is the natural end-of-sequence
sentinel, in which case `EOS_TOKEN` with no matched string; `"abort"` to
`CANCELLED`; and any other condition to `CANCELLED`. -/
theorem convert_reason_classification (o : CompletionOutput)
    (mitl tlr : Bool) :
    (o.finish_reason = none →
      convert_reason o mitl tlr =
        (if tlr then .TIME_LIMIT else .NOT_FINISHED, none)) ∧
    (o.finish_reason = some "length" →
      convert_reason o mitl tlr =
        (if mitl then .TOKEN_LIMIT else .MAX_TOKENS, none)) ∧
    (∀ s, o.finish_reason = some "stop" → o.has_stop_reason = true →
      o.stop_reason_attr = some (.str s) →
      convert_reason o mitl tlr = (.STOP_SEQUENCE, some s)) ∧
    (o.finish_reason = some "stop" → o.has_stop_reason = true →
      o.stop_reason_attr = none →
      convert_reason o mitl tlr = (.EOS_TOKEN, none)) ∧
    (o.finish_reason = some "abort" →
      convert_reason o mitl tlr = (.CANCELLED, none)) ∧
    (∀ fr, o.finish_reason = some fr → fr ≠ "length" → fr ≠ "stop" →
      fr ≠ "abort" → convert_reason o mitl tlr = (.CANCELLED, none)) := by
  refine ⟨?_, ?_, ?_, ?_, ?_, ?_⟩ <;> intros <;>
    simp_all [convert_reason]

/-- Witness for C3 at concrete inputs. -/
theorem convert_reason_classification_witness :
    convert_reason
      { text := [], token_ids := [], logprobs := none,
        finish_reason := some "abort", has_stop_reason := true,
        stop_reason_attr := none } false false = (.CANCELLED, none) ∧
    convert_reason
      { text := [], token_ids := [], logprobs := none,
        finish_reason := some "stop", has_stop_reason := true,
        stop_reason_attr := some (.str "xy") } true false =
      (.STOP_SEQUENCE, some "xy") :=
  ⟨(convert_reason_classification _ false false).2.2.2.2.1 rfl,
   (convert_reason_classification _ true false).2.2.1 "xy" rfl rfl rfl⟩

/-! ## Claim C5: oversized prompts are rejected with invalid-argument -/

/-- C5: whenever the tokenized prompt length meets or exceeds the model's
context window, or the prompt token count plus `min_new_tokens` exceeds the
context window, `_validate_prompt_and_tokenize` aborts the call with an
invalid-argument status (so the engine is never invoked for the call). -/
theorem prompt_size_rejection (cfg : ServiceConfig) (sp : SamplingParams)
    (input_ids : List Nat)
    (h : cfg.max_model_len ≤ input_ids.length ∨
         cfg.max_model_len < input_ids.length + sp.min_tokens) :
    ∃ msg, validate_prompt_and_tokenize cfg sp input_ids =
      .error (.INVALID_ARGUMENT, msg) := by
  unfold validate_prompt_and_tokenize
  rcases h with h | h
  · rw [if_pos (by omega)]
    exact ⟨_, rfl⟩
  · by_cases h1 : input_ids.length ≥ cfg.max_model_len
    · rw [if_pos h1]
      exact ⟨_, rfl⟩
    · rw [if_neg h1, if_pos (by omega)]
      exact ⟨_, rfl⟩

/-- Witness for C5: a 5-token prompt against a 4-token context window. -/
theorem prompt_size_rejection_witness :
    (4 : Nat) ≤ [1, 2, 3, 4, 5].length ∧
    ∃ msg, validate_prompt_and_tokenize
      { max_max_new_tokens := 10, skip_special_tokens := true,
        default_include_stop_seqs := false, max_model_len := 4 }
      { logprobs := none, prompt_logprobs := none, max_tokens := none,
        min_tokens := 0, temperature := 0, top_k := -1, top_p := 1,
        seed := none, repetition_penalty := 1, logits_processors := none,
        stop := none, include_stop_str_in_output := false,
        skip_special_tokens := true } [1, 2, 3, 4, 5] =
      .error (.INVALID_ARGUMENT, msg) :=
  ⟨by decide,
   prompt_size_rejection _ _ _ (Or.inl (by decide))⟩

/-! ## Claim C6: stop-sequence list validation -/

/-- A `Parameters` message whose only non-default field is the
stop-sequence list (proto3 defaults everywhere else). -/
def paramsWithStops (sss : List String) : Parameters :=
  { method := .GREEDY,
    sampling := { temperature := 0, top_k := 0, top_p := 0, typical_p := 0,
                  seed := none },
    stopping := { max_new_tokens := 0, min_new_tokens := 0,
                  stop_sequences := sss, time_limit_millis := 0,
                  include_stop_sequence := none },
    response := { input_text := false, input_tokens := false,
                  generated_tokens := false, token_logprobs := false,
                  token_ranks := false, top_n_tokens := 0 },
    decoding := { length_penalty := none, repetition_penalty := 0 },
    truncate_input_tokens := 0 }

/-- A stop sequence of `n` one-byte characters. -/
def asciiStop (n : Nat) : String := String.mk (List.replicate n 'a')

/-- A stop sequence of 240 characters occupying 241 UTF-8 bytes. -/
def multibyteStop : String := String.mk (List.replicate 239 'a' ++ ['é'])

set_option maxRecDepth 8000 in
/-- C6 counterexample: the claim says an entry of 241 bytes is rejected, but
the code measures `len(ss)` in characters, so a 240-character entry
occupying 241 UTF-8 bytes is accepted. -/
theorem stop_sequence_bytes_counterexample :
    multibyteStop.utf8ByteSize = 241 ∧
    (validate_and_convert_params
      { max_max_new_tokens := 16, skip_special_tokens := true,
        default_include_stop_seqs := false, max_model_len := 2048 }
      (paramsWithStops [multibyteStop]) 0).isOk = true := by
  constructor
  · decide
  · decide

/-- C6 (amended): validation accepts a stop-sequence list exactly when it
has at most 6 entries and every entry's length is at least 1 and at most
240 *characters* (Python `len`, i.e. code points — not UTF-8 bytes); a
rejection fails the whole request with invalid-argument (`Except.error`
here, so `isOk = false`). -/
theorem stop_sequence_validation (cfg : ServiceConfig) (now : Rat)
    (sss : List String) :
    (validate_and_convert_params cfg (paramsWithStops sss) now).isOk = true ↔
      sss.length ≤ MAX_STOP_SEQS ∧
        ∀ ss ∈ sss, 0 < ss.length ∧ ss.length ≤ MAX_STOP_SEQ_LENGTH := by
  by_cases hc : (¬sss = [] ∧ MAX_STOP_SEQS < sss.length) ∨
      (∃ x ∈ sss, 0 < x.length → MAX_STOP_SEQ_LENGTH < x.length)
  · have herr : (validate_and_convert_params cfg (paramsWithStops sss)
        now).isOk = false := by
      unfold validate_and_convert_params
      simp [paramsWithStops, hc, Except.isOk, Except.toBool,
        minNewTokensOf, maxNewTokensOpt]
    rw [herr]
    simp only [Bool.false_eq_true, false_iff, not_and]
    intro hlen hall
    rcases hc with ⟨hne, hgt⟩ | ⟨x, hx, himp⟩
    · omega
    · obtain ⟨hpos, hle⟩ := hall x hx
      exact absurd (himp hpos) (by omega)
  · have hok : (validate_and_convert_params cfg (paramsWithStops sss)
        now).isOk = true := by
      unfold validate_and_convert_params
      simp [paramsWithStops, hc, Except.isOk, Except.toBool,
        minNewTokensOf, maxNewTokensOpt]
    rw [hok]
    simp only [true_iff]
    push_neg at hc
    refine ⟨?_, hc.2⟩
    by_cases hnil : sss = []
    · simp [hnil, MAX_STOP_SEQS]
    · exact hc.1 hnil

set_option maxRecDepth 8000 in
/-- Witness for C6 (amended) at the claim's concrete inputs: 7 entries are
rejected, 6 entries of 240 ASCII bytes each are accepted, one entry of 241
ASCII bytes (= 241 characters) is rejected. -/
theorem stop_sequence_validation_witness :
    (validate_and_convert_params
      { max_max_new_tokens := 16, skip_special_tokens := true,
        default_include_stop_seqs := false, max_model_len := 2048 }
      (paramsWithStops (List.replicate 7 "a")) 0).isOk = false ∧
    (validate_and_convert_params
      { max_max_new_tokens := 16, skip_special_tokens := true,
        default_include_stop_seqs := false, max_model_len := 2048 }
      (paramsWithStops (List.replicate 6 (asciiStop 240))) 0).isOk = true ∧
    (validate_and_convert_params
      { max_max_new_tokens := 16, skip_special_tokens := true,
        default_include_stop_seqs := false, max_model_len := 2048 }
      (paramsWithStops [asciiStop 241]) 0).isOk = false := by
  refine ⟨?_, ?_, ?_⟩
  · rw [Bool.eq_false_iff]
    intro hok
    exact absurd ((stop_sequence_validation _ 0 _).mp hok) (by decide)
  · exact (stop_sequence_validation _ 0 _).mpr (by decide)
  · rw [Bool.eq_false_iff]
    intro hok
    exact absurd ((stop_sequence_validation _ 0 _).mp hok) (by decide)

/-! ## Claim C7: logprob count arithmetic -/

/-- C7: on success, the converted logprob count is 1 if per-token logprobs
or ranks are requested and 0 otherwise (`with_default` stores a zero count
as `none`); when top-N tokens are requested the top-N count is added and 1
is subtracted when decoding is greedy and per-token logprobs were
requested; a top-N count above 10 rejects the request. -/
theorem logprobs_count_conversion (cfg : ServiceConfig) (p : Parameters)
    (now : Rat) :
    (∀ sp dl, validate_and_convert_params cfg p now = .ok (sp, dl) →
      sp.logprobs =
        (let base : Nat :=
           if p.response.token_logprobs || p.response.token_ranks then 1
           else 0
         let c : Nat :=
           if p.response.top_n_tokens ≠ 0 then
             base + p.response.top_n_tokens -
               (if (p.method == DecodingMethod.GREEDY) &&
                   p.response.token_logprobs then 1 else 0)
           else base
         if c = 0 then none else some c)) ∧
    (p.response.top_n_tokens > MAX_TOP_N_TOKENS →
      (validate_and_convert_params cfg p now).isOk = false) := by
  constructor
  · intro sp dl hv
    unfold validate_and_convert_params at hv
    dsimp only at hv
    split at hv
    · exact absurd hv (by simp)
    split at hv
    · exact absurd hv (by simp)
    split at hv
    · exact absurd hv (by simp)
    split at hv
    · exact absurd hv (by simp)
    split at hv
    · exact absurd hv (by simp)
    rw [Except.ok.injEq, Prod.mk.injEq] at hv
    obtain ⟨hsp, -⟩ := hv
    subst hsp
    rfl
  · intro h
    have hne : p.response.top_n_tokens ≠ 0 := by
      rw [MAX_TOP_N_TOKENS] at h
      omega
    unfold validate_and_convert_params
    dsimp only
    split
    · rfl
    split
    · rfl
    split
    · rfl
    split
    · rfl
    split
    · rfl
    · rename_i hcond
      exact absurd ⟨hne, h⟩ hcond

/-- A `Parameters` message asking for greedy decoding with per-token
logprobs and a given top-N count. -/
def paramsTopN (tn : Nat) : Parameters :=
  { method := .GREEDY,
    sampling := { temperature := 0, top_k := 0, top_p := 0, typical_p := 0,
                  seed := none },
    stopping := { max_new_tokens := 0, min_new_tokens := 0,
                  stop_sequences := [], time_limit_millis := 0,
                  include_stop_sequence := none },
    response := { input_text := false, input_tokens := false,
                  generated_tokens := true, token_logprobs := true,
                  token_ranks := false, top_n_tokens := tn },
    decoding := { length_penalty := none, repetition_penalty := 0 },
    truncate_input_tokens := 0 }

/-- Witness for C7: greedy decoding with per-token logprobs and top-5
requested yields a logprob count of 1 + 5 - 1 = 5; top-11 is rejected. -/
theorem logprobs_count_conversion_witness :
    (∃ sp dl, validate_and_convert_params
        { max_max_new_tokens := 16, skip_special_tokens := true,
          default_include_stop_seqs := false, max_model_len := 2048 }
        (paramsTopN 5) 0 = .ok (sp, dl) ∧ sp.logprobs = some 5) ∧
    (validate_and_convert_params
        { max_max_new_tokens := 16, skip_special_tokens := true,
          default_include_stop_seqs := false, max_model_len := 2048 }
        (paramsTopN 11) 0).isOk = false := by
  constructor
  · exact ⟨_, _, rfl,
      (logprobs_count_conversion _ (paramsTopN 5) 0).1 _ _ rfl⟩
  · exact (logprobs_count_conversion _ (paramsTopN 11) 0).2 (by decide)

/-! ## Claim C4: min/max token-bound invariant after preparation -/

/-- Validation guarantees `min_tokens <= max_tokens` when a max was given
and `min_tokens <=` the configured ceiling when it was not. -/
lemma validate_params_min_le (cfg : ServiceConfig) (p : Parameters)
    (now : Rat) (sp : SamplingParams) (dl : Option Rat)
    (hv : validate_and_convert_params cfg p now = .ok (sp, dl)) :
    sp.min_tokens ≤ sp.max_tokens.getD cfg.max_max_new_tokens := by
  unfold validate_and_convert_params at hv
  dsimp only at hv
  split at hv
  · exact absurd hv (by simp)
  split at hv
  · exact absurd hv (by simp)
  split at hv
  · exact absurd hv (by simp)
  split at hv
  · exact absurd hv (by simp)
  split at hv
  · exact absurd hv (by simp)
  rw [Except.ok.injEq, Prod.mk.injEq] at hv
  obtain ⟨hsp, -⟩ := hv
  subst hsp
  rename_i hmin _ _
  simpa [buildSamplingParams] using Nat.le_of_not_lt hmin

/-- C4: after validation and prompt preparation the sampling configuration
has a concrete `max_tokens` bound with `min_tokens <= max_tokens`; an unset
user max resolves to `min(ceiling, window - token_count)` flagged implicit,
a user max overflowing the window is clamped to `window - token_count`
flagged implicit, and otherwise the user's bound is kept unchanged and
flagged explicit. -/
theorem sampling_bounds_invariant (cfg : ServiceConfig) (p : Parameters)
    (now : Rat) (sp : SamplingParams) (dl : Option Rat)
    (input_ids : List Nat) (sp2 : SamplingParams) (flag : Bool)
    (hv : validate_and_convert_params cfg p now = .ok (sp, dl))
    (hp : validate_prompt_and_tokenize cfg sp input_ids = .ok (sp2, flag)) :
    (∃ m, sp2.max_tokens = some m ∧ sp2.min_tokens ≤ m) ∧
    (sp.max_tokens = none →
      sp2.max_tokens =
        some (min cfg.max_max_new_tokens
          (cfg.max_model_len - input_ids.length)) ∧ flag = true) ∧
    (∀ m, sp.max_tokens = some m →
      cfg.max_model_len < input_ids.length + m →
      sp2.max_tokens = some (cfg.max_model_len - input_ids.length) ∧
        flag = true) ∧
    (∀ m, sp.max_tokens = some m →
      input_ids.length + m ≤ cfg.max_model_len →
      sp2 = sp ∧ flag = false) := by
  have hmin := validate_params_min_le cfg p now sp dl hv
  unfold validate_prompt_and_tokenize at hp
  dsimp only at hp
  split at hp
  · exact absurd hp (by simp)
  split at hp
  · exact absurd hp (by simp)
  rename_i hlen hminlen
  rw [Nat.not_le] at hlen
  rw [Nat.not_lt] at hminlen
  split at hp
  · rename_i hnone
    rw [Except.ok.injEq, Prod.mk.injEq] at hp
    obtain ⟨hsp2, hflag⟩ := hp
    subst hsp2
    refine ⟨⟨_, rfl, ?_⟩, fun _ => ⟨rfl, hflag.symm⟩, ?_, ?_⟩
    · rw [hnone] at hmin
      simp only [Option.getD] at hmin ⊢
      omega
    · intro m hm
      rw [hm] at hnone
      exact absurd hnone (by simp)
    · intro m hm
      rw [hm] at hnone
      exact absurd hnone (by simp)
  · rename_i m hsome
    rw [hsome] at hmin
    simp only [Option.getD] at hmin
    split at hp
    · rename_i hover
      rw [Except.ok.injEq, Prod.mk.injEq] at hp
      obtain ⟨hsp2, hflag⟩ := hp
      subst hsp2
      refine ⟨⟨_, rfl, by simp; omega⟩, ?_, ?_, ?_⟩
      · intro hnone
        rw [hnone] at hsome
        exact absurd hsome (by simp)
      · intro m' hm'
        rw [hsome] at hm'
        rw [Option.some.injEq] at hm'
        subst hm'
        exact fun _ => ⟨rfl, hflag.symm⟩
      · intro m' hm' hle
        rw [hsome] at hm'
        rw [Option.some.injEq] at hm'
        subst hm'
        omega
    · rename_i hfits
      rw [Nat.not_lt] at hfits
      rw [Except.ok.injEq, Prod.mk.injEq] at hp
      obtain ⟨hsp2, hflag⟩ := hp
      subst hsp2
      refine ⟨⟨m, hsome, hmin⟩, ?_, ?_, ?_⟩
      · intro hnone
        rw [hnone] at hsome
        exact absurd hsome (by simp)
      · intro m' hm' hover
        rw [hsome] at hm'
        rw [Option.some.injEq] at hm'
        subst hm'
        omega
      · intro m' hm' _
        exact ⟨rfl, hflag.symm⟩

/-- A `Parameters` message requesting explicit min/max new-token bounds. -/
def paramsMinMax (mx : Nat) (mn : Int) : Parameters :=
  { method := .GREEDY,
    sampling := { temperature := 0, top_k := 0, top_p := 0, typical_p := 0,
                  seed := none },
    stopping := { max_new_tokens := mx, min_new_tokens := mn,
                  stop_sequences := [], time_limit_millis := 0,
                  include_stop_sequence := none },
    response := { input_text := false, input_tokens := false,
                  generated_tokens := false, token_logprobs := false,
                  token_ranks := false, top_n_tokens := 0 },
    decoding := { length_penalty := none, repetition_penalty := 0 },
    truncate_input_tokens := 0 }

/-- Witness for C4: max 5 with a 3-token prompt in a 50-token window is kept
explicit. -/
def cfgWindow50 : ServiceConfig :=
  { max_max_new_tokens := 10, skip_special_tokens := true,
    default_include_stop_seqs := false, max_model_len := 50 }

theorem sampling_bounds_invariant_witness :
    ∃ sp sp2 flag,
      validate_and_convert_params cfgWindow50 (paramsMinMax 5 2) 0 =
        .ok (sp, none) ∧
      validate_prompt_and_tokenize cfgWindow50 sp [1, 2, 3] =
        .ok (sp2, flag) ∧
      (∃ m, sp2.max_tokens = some m ∧ sp2.min_tokens ≤ m) := by
  have h1 : validate_and_convert_params cfgWindow50 (paramsMinMax 5 2) 0 =
      .ok (buildSamplingParams cfgWindow50 (paramsMinMax 5 2), none) := rfl
  have h2 : validate_prompt_and_tokenize cfgWindow50
      (buildSamplingParams cfgWindow50 (paramsMinMax 5 2)) [1, 2, 3] =
      .ok (buildSamplingParams cfgWindow50 (paramsMinMax 5 2), false) := rfl
  exact ⟨_, _, _, h1, h2,
    (sampling_bounds_invariant cfgWindow50 (paramsMinMax 5 2) 0 _ _
      [1, 2, 3] _ _ h1 h2).1⟩

/-! ## Claims C8 and C10: top-N alternative tokens -/

/-- On success with top-N requested, the attached alternatives are exactly
the top-N sorted items, each rendered by `mkTopToken`. -/
lemma convert_token_top_tokens (tok : Nat → String) (ilp irk : Bool)
    (n tid : Nat) (lpm : LogprobMap) (info : TokenInfo)
    (hconv : convert_token tok ilp irk n tid (some lpm) = some info)
    (hn : n ≠ 0) :
    info.top_tokens = (topItems lpm n).map (mkTopToken tok ilp) := by
  unfold convert_token at hconv
  dsimp only at hconv
  obtain ⟨b, -, hfb⟩ := Option.map_eq_some'.mp hconv
  rw [if_pos hn] at hfb
  rw [← hfb]

/-- `insertTop x l` is `x :: l` up to permutation. -/
lemma insertTop_perm (x : Nat × Logprob) (l : LogprobMap) :
    (insertTop x l).Perm (x :: l) := by
  induction l with
  | nil => simp [insertTop]
  | cons y ys ih =>
    unfold insertTop
    split
    · exact List.Perm.refl _
    · exact (ih.cons y).trans (List.Perm.swap x y ys)

/-- The sorted item list is a permutation of the map's entries. -/
lemma sortedItems_perm (m : LogprobMap) : (sortedItems m).Perm m := by
  induction m with
  | nil => simp [sortedItems]
  | cons x rest ih =>
    exact (insertTop_perm x (sortedItems rest)).trans (ih.cons x)

/-- Membership in an insertion. -/
lemma mem_insertTop (z x : Nat × Logprob) (l : LogprobMap) :
    z ∈ insertTop x l ↔ z = x ∨ z ∈ l := by
  rw [(insertTop_perm x l).mem_iff, List.mem_cons]

/-- Insertion keeps the list descending-sorted by logprob. -/
lemma insertTop_pairwise (x : Nat × Logprob) (l : LogprobMap)
    (hl : l.Pairwise (fun a b => b.2.logprob ≤ a.2.logprob)) :
    (insertTop x l).Pairwise (fun a b => b.2.logprob ≤ a.2.logprob) := by
  induction l with
  | nil => simp [insertTop]
  | cons y ys ih =>
    rw [List.pairwise_cons] at hl
    obtain ⟨hy, hys⟩ := hl
    unfold insertTop
    split
    · rename_i h
      rw [List.pairwise_cons]
      refine ⟨?_, List.pairwise_cons.mpr ⟨hy, hys⟩⟩
      intro z hz
      rcases List.mem_cons.mp hz with rfl | hz
      · exact h
      · exact le_trans (hy z hz) h
    · rename_i h
      rw [List.pairwise_cons]
      refine ⟨?_, ih hys⟩
      intro z hz
      rcases (mem_insertTop z x ys).mp hz with rfl | hz
      · exact le_of_lt (lt_of_not_le h)
      · exact hy z hz

/-- The sorted item list is pairwise descending in logprob. -/
lemma sortedItems_pairwise (m : LogprobMap) :
    (sortedItems m).Pairwise (fun a b => b.2.logprob ≤ a.2.logprob) := by
  induction m with
  | nil => simp [sortedItems]
  | cons x rest ih => exact insertTop_pairwise x (sortedItems rest) ih

/-- Insertion splits the target list at the first entry whose logprob is at
most the inserted one. -/
lemma insertTop_decomp (x : Nat × Logprob) (l : LogprobMap) :
    ∃ l₁ l₂, l = l₁ ++ l₂ ∧ insertTop x l = l₁ ++ x :: l₂ ∧
      ∀ y ∈ l₁, ¬ y.2.logprob ≤ x.2.logprob := by
  induction l with
  | nil => exact ⟨[], [], rfl, rfl, by simp⟩
  | cons y ys ih =>
    by_cases h : y.2.logprob ≤ x.2.logprob
    · exact ⟨[], y :: ys, rfl, by simp [insertTop, h], by simp⟩
    · obtain ⟨l₁, l₂, he, hi, hgt⟩ := ih
      refine ⟨y :: l₁, l₂, by simp [he], by simp [insertTop, h, hi], ?_⟩
      intro z hz
      rcases List.mem_cons.mp hz with rfl | hz
      · exact h
      · exact hgt z hz

/-- A list stays a sublist of its own insertion extension. -/
lemma sublist_insertTop (x : Nat × Logprob) (l : LogprobMap) :
    l.Sublist (insertTop x l) := by
  obtain ⟨l₁, l₂, he, hi, -⟩ := insertTop_decomp x l
  rw [hi]
  rw [he]
  exact List.Sublist.append_left (List.Sublist.cons x (List.Sublist.refl l₂)) l₁

/-- Stability of the sort (the same shape as the standard stable-sort
specification): any in-order pair of entries whose left member has at
least the right member's logprob — in particular any logprob tie —
remains in the same order in the sorted output. -/
lemma pair_sublist_sortedItems (a b : Nat × Logprob) :
    ∀ m : LogprobMap, [a, b].Sublist m → b.2.logprob ≤ a.2.logprob →
      [a, b].Sublist (sortedItems m) := by
  intro m
  induction m with
  | nil => intro h _; cases h
  | cons x rest ih =>
    intro h hba
    have hfold : sortedItems (x :: rest) = insertTop x (sortedItems rest) :=
      rfl
    cases h with
    | cons _ h2 =>
      exact (ih h2 hba).trans (hfold ▸ sublist_insertTop x (sortedItems rest))
    | cons₂ _ h2 =>
      rw [hfold]
      obtain ⟨l₁, l₂, he, hi, hgt⟩ := insertTop_decomp a (sortedItems rest)
      rw [hi]
      have hb : b ∈ sortedItems rest :=
        (sortedItems_perm rest).mem_iff.mpr (h2.subset (by simp))
      rw [he] at hb
      have hb2 : b ∈ l₂ := by
        rcases List.mem_append.mp hb with h1 | h2'
        · exact absurd hba (hgt b h1)
        · exact h2'
      have hstep : List.Sublist [a, b] (a :: l₂) :=
        List.Sublist.cons₂ a (List.singleton_sublist.mpr hb2)
      exact hstep.trans (List.sublist_append_right _ _)

/-- `topItems` returns `min n (size of the map)` entries. -/
lemma topItems_length (m : LogprobMap) (n : Nat) :
    (topItems m n).length = min n m.length := by
  simp [topItems, (sortedItems_perm m).length_eq]

/-- C10: when top-N alternatives are produced, every alternative carries a
logprob value exactly when per-token logprobs were requested; without that
request the alternatives (text, ordering) are still produced, with the
logprob field absent. -/
theorem top_token_logprob_presence (tok : Nat → String) (ilp irk : Bool)
    (n tid : Nat) (lpm : LogprobMap) (info : TokenInfo)
    (hconv : convert_token tok ilp irk n tid (some lpm) = some info)
    (hn : n ≠ 0) :
    info.top_tokens.length = min n lpm.length ∧
    (ilp = false → ∀ t ∈ info.top_tokens, t.logprob = none) ∧
    (ilp = true → ∀ t ∈ info.top_tokens, t.logprob.isSome = true) := by
  have htt := convert_token_top_tokens tok ilp irk n tid lpm info hconv hn
  refine ⟨?_, ?_, ?_⟩
  · rw [htt, List.length_map, topItems_length]
  · intro h t ht
    rw [htt] at ht
    obtain ⟨it, -, rfl⟩ := List.mem_map.mp ht
    simp [mkTopToken, h]
  · intro h t ht
    rw [htt] at ht
    obtain ⟨it, -, rfl⟩ := List.mem_map.mp ht
    simp [mkTopToken, h]

/-- Witness for C10: two alternatives produced, logprob fields absent when
per-token logprobs are not requested. -/
theorem top_token_logprob_presence_witness :
    convert_token (fun n => toString n) false false 2 5
        (some [(5, ⟨-1, some 2⟩), (7, ⟨-2, some 1⟩)]) =
      some { text := "5", logprob := none, rank := none,
             top_tokens := [{ text := "5", logprob := none },
                            { text := "7", logprob := none }] } ∧
    (2 : Nat) ≠ 0 ∧
    (∀ t ∈ [({ text := "5", logprob := none } : TopToken),
            { text := "7", logprob := none }], t.logprob = none) := by
  refine ⟨by decide, by decide, ?_⟩
  have h := (top_token_logprob_presence (fun n => toString n) false false 2 5
    [(5, ⟨-1, some 2⟩), (7, ⟨-2, some 1⟩)]
    { text := "5", logprob := none, rank := none,
      top_tokens := [{ text := "5", logprob := none },
                     { text := "7", logprob := none }] }
    (by decide) (by decide)).2.1 rfl
  exact h

/-- C8: with top-N alternatives requested (N within the hard cap enforced at
validation), the attached alternative list is the rendering of the top-N
sorted items; it has at most N and at most 10 entries; the sorted items are
pairwise descending by logprob; the sorted item list is a permutation of
the map; and the sort is stable: any in-order pair of entries with
non-increasing logprobs (so in particular any tie) keeps its insertion
order in the sorted list, of which the attached alternatives are the first
N entries. -/
theorem top_tokens_sorted_stable (tok : Nat → String) (ilp irk : Bool)
    (n tid : Nat) (lpm : LogprobMap) (info : TokenInfo)
    (hconv : convert_token tok ilp irk n tid (some lpm) = some info)
    (hn : n ≠ 0) (hcap : n ≤ MAX_TOP_N_TOKENS) :
    info.top_tokens = ((sortedItems lpm).take n).map (mkTopToken tok ilp) ∧
    info.top_tokens.length ≤ n ∧
    info.top_tokens.length ≤ MAX_TOP_N_TOKENS ∧
    (topItems lpm n).Pairwise (fun a b => b.2.logprob ≤ a.2.logprob) ∧
    (sortedItems lpm).Perm lpm ∧
    (∀ a b, [a, b].Sublist lpm → b.2.logprob ≤ a.2.logprob →
      [a, b].Sublist (sortedItems lpm)) := by
  have htt := convert_token_top_tokens tok ilp irk n tid lpm info hconv hn
  have hlen : info.top_tokens.length ≤ n := by
    rw [htt, List.length_map, topItems_length]
    exact Nat.min_le_left _ _
  exact ⟨htt, hlen, le_trans hlen hcap,
    (sortedItems_pairwise lpm).sublist (List.take_sublist _ _),
    sortedItems_perm lpm,
    fun a b hab hba => pair_sublist_sortedItems a b lpm hab hba⟩

/-- Witness for C8: a three-entry map with a logprob tie between the first
two entries; the sorted-descending order and the stable tie-break are
visible in the produced alternative list. -/
theorem top_tokens_sorted_stable_witness :
    convert_token (fun n => toString n) true false 3 9
        (some [(5, ⟨-1, some 2⟩), (7, ⟨-1, some 3⟩), (9, ⟨0, some 1⟩)]) =
      some { text := "9", logprob := some 0, rank := none,
             top_tokens := [{ text := "9", logprob := some 0 },
                            { text := "5", logprob := some (-1) },
                            { text := "7", logprob := some (-1) }] } ∧
    (topItems [(5, ⟨-1, some 2⟩), (7, ⟨-1, some 3⟩), (9, ⟨0, some 1⟩)]
        3).Pairwise (fun a b => b.2.logprob ≤ a.2.logprob) := by
  refine ⟨by decide, ?_⟩
  exact (top_tokens_sorted_stable (fun n => toString n) true false 3 9
    [(5, ⟨-1, some 2⟩), (7, ⟨-1, some 3⟩), (9, ⟨0, some 1⟩)]
    { text := "9", logprob := some 0, rank := none,
      top_tokens := [{ text := "9", logprob := some 0 },
                     { text := "5", logprob := some (-1) },
                     { text := "7", logprob := some (-1) }] }
    (by decide) (by decide) (by decide)).2.2.2.1

/-! ## Claim C1: batch deadline handling -/

lemma generate_loop_time_limit (d : Rat) (n : Nat) :
    ∀ (events : List (Nat × RequestOutput × Rat))
      (responses responses2 : List (Option RequestOutput)) (ab : List Nat),
    generate_loop (some d) n events responses = (responses2, true, ab) →
    ab = List.range n ∧ responses2.all (fun r => r.isSome) = true := by
  intro events
  induction events with
  | nil =>
    intro r r2 ab h
    rw [generate_loop] at h
    exact absurd h (by simp)
  | cons ev rest ih =>
    intro r r2 ab h
    obtain ⟨i, res, now⟩ := ev
    rw [generate_loop] at h
    dsimp only at h
    split at h
    · rename_i hcond
      rw [Prod.mk.injEq, Prod.mk.injEq] at h
      obtain ⟨h1, -, h3⟩ := h
      subst h1
      subst h3
      rw [Bool.and_eq_true] at hcond
      exact ⟨rfl, hcond.2⟩
    · exact ih _ _ _ h

lemma convert_output_fields (tok : Nat → String) (output : CompletionOutput)
    (resp : ResponseOptions) (mitl tlr : Bool) (tso kso : Nat)
    (r : GenerationResponse)
    (h : convert_output tok output resp mitl tlr tso kso = some r) :
    r.stop_reason = (convert_reason output mitl tlr).1 ∧
    r.text = output.text.drop tso := by
  unfold convert_output at h
  dsimp only at h
  split at h
  · obtain ⟨tis, -, hfb⟩ := Option.map_eq_some'.mp h
    rw [← hfb]
    exact ⟨rfl, rfl⟩
  · rw [Option.some.injEq] at h
    rw [← h]
    exact ⟨rfl, rfl⟩

lemma convert_input_details_stop_reason (tok : Nat → String)
    (resp : ResponseOptions) (sp : SamplingParams) (result : RequestOutput)
    (response : GenerationResponse) (out : GenerationResponse)
    (h : convert_input_details tok resp sp result response = some out) :
    out.stop_reason = response.stop_reason := by
  unfold convert_input_details at h
  dsimp only at h
  obtain ⟨r2, hr2, h⟩ := Option.bind_eq_some.mp h
  obtain ⟨r3, hr3, h3⟩ := Option.map_eq_some'.mp h
  have hr2sr : r2.stop_reason = response.stop_reason := by
    split at hr2
    · obtain ⟨tis, -, hfb⟩ := Option.map_eq_some'.mp hr2
      rw [← hfb]
    · rw [Option.some.injEq] at hr2
      rw [← hr2]
  have hr3sr : r3.stop_reason = r2.stop_reason := by
    split at hr3
    · obtain ⟨p, -, hfb⟩ := Option.map_eq_some'.mp hr3
      rw [← hfb]
    · rw [Option.some.injEq] at hr3
      rw [← hr3]
  rw [← h3]
  cases hs : sp.seed <;> simp only [hs] <;> rw [hr3sr, hr2sr]

lemma assemble_one_time_limit (tok : Nat → String) (resp : ResponseOptions)
    (sp : SamplingParams) (prompt : List Char) (mitl : Bool)
    (r : RequestOutput) (o : CompletionOutput) (out : GenerationResponse)
    (ho : r.outputs.head? = some o)
    (h : assemble_one tok resp sp prompt mitl true r = some out)
    (hf : o.finish_reason = none) :
    out.stop_reason = .TIME_LIMIT := by
  unfold assemble_one at h
  dsimp only at h
  rw [ho] at h
  simp only [Option.bind_eq_bind] at h
  simp only [Option.some_bind] at h
  obtain ⟨response, hconv, h⟩ := Option.bind_eq_some.mp h
  have h1 := (convert_output_fields tok o resp mitl true 0 0 response hconv).1
  have h2 := convert_input_details_stop_reason tok resp sp _ response out h
  rw [h2, h1]
  simp [convert_reason, hf]

-- C1 counterexample data: one member already finished with "stop"
def cexOut : CompletionOutput :=
  { text := "ab".toList, token_ids := [1, 2], logprobs := none,
    finish_reason := some "stop", has_stop_reason := true,
    stop_reason_attr := some (.str "b") }

def cexRes : RequestOutput :=
  { prompt := none, prompt_token_ids := [9], prompt_logprobs := none,
    outputs := [cexOut] }

def cexResp : ResponseOptions :=
  { input_text := false, input_tokens := false, generated_tokens := false,
    token_logprobs := false, token_ranks := false, top_n_tokens := 0 }

def cexSp : SamplingParams :=
  { logprobs := none, prompt_logprobs := none, max_tokens := some 3,
    min_tokens := 0, temperature := 0, top_k := -1, top_p := 1,
    seed := none, repetition_penalty := 1, logits_processors := none,
    stop := none, include_stop_str_in_output := false,
    skip_special_tokens := true }

/-- C1 counterexample: with the deadline hit after the sole member has
produced a snapshot, the loop aborts every index and flags the time limit,
but the member — whose collected snapshot already carries finish condition
`"stop"` — is classified `STOP_SEQUENCE`, not `TIME_LIMIT` as the claim
demands for every member. -/
theorem batch_time_limit_counterexample :
    (generate_loop (some 5) 1 [(0, cexRes, 5)] (List.replicate 1 none)) =
      ([some cexRes], true, [0]) ∧
    ∃ out, assemble_one (fun n => toString n) cexResp cexSp [] false true
        cexRes = some out ∧ out.stop_reason = .STOP_SEQUENCE ∧
      out.stop_reason ≠ .TIME_LIMIT := by
  refine ⟨by decide, ?_⟩
  refine ⟨_, rfl, by decide, by decide⟩

/-- C1 (amended): when the batch loop ends with the deadline exceeded at a
point where every index holds a snapshot, an abort is issued for every
request index and no response entry is left unset; and every member whose
collected snapshot has *no finish condition* is classified `TIME_LIMIT`
(members already terminal keep their own classified stop reason — their
terminal snapshots are used as-is). -/
theorem batch_deadline_abort_all :
    (∀ (d : Rat) (n : Nat) (events : List (Nat × RequestOutput × Rat))
       (responses2 : List (Option RequestOutput)) (ab : List Nat),
      generate_loop (some d) n events (List.replicate n none) =
        (responses2, true, ab) →
      ab = List.range n ∧ responses2.all (fun r => r.isSome) = true) ∧
    (∀ (tok : Nat → String) (resp : ResponseOptions) (sp : SamplingParams)
       (prompt : List Char) (mitl : Bool) (r : RequestOutput)
       (o : CompletionOutput) (out : GenerationResponse),
      r.outputs.head? = some o →
      assemble_one tok resp sp prompt mitl true r = some out →
      o.finish_reason = none → out.stop_reason = .TIME_LIMIT) :=
  ⟨fun d n events r2 ab h => generate_loop_time_limit d n events _ r2 ab h,
   fun tok resp sp prompt mitl r o out ho h hf =>
     assemble_one_time_limit tok resp sp prompt mitl r o out ho h hf⟩

def wOut : CompletionOutput :=
  { text := "ab".toList, token_ids := [1, 2], logprobs := none,
    finish_reason := none, has_stop_reason := true,
    stop_reason_attr := none }

def wRes : RequestOutput :=
  { prompt := none, prompt_token_ids := [9], prompt_logprobs := none,
    outputs := [wOut] }

/-- Witness for C1 (amended): a two-member batch whose deadline fires at the
second snapshot; both indices aborted, both responses set, the member with
no finish condition reports `TIME_LIMIT`. -/
theorem batch_deadline_abort_all_witness :
    (generate_loop (some 5) 2 [(0, wRes, 3), (1, wRes, 6)]
        (List.replicate 2 none) =
      ([some wRes, some wRes], true, [0, 1])) ∧
    List.range 2 = [0, 1] ∧
    (∃ out, assemble_one (fun n => toString n) cexResp cexSp [] false true
        wRes = some out ∧ out.stop_reason = .TIME_LIMIT) := by
  refine ⟨by decide, by decide, ?_⟩
  refine ⟨_, rfl, ?_⟩
  exact (batch_deadline_abort_all).2 (fun n => toString n) cexResp cexSp []
    false wRes wOut _ (by decide) rfl rfl

/-! ## Claim C9: stream deadline handling -/

lemma stream_go_deadline (tok : Nat → String) (resp : ResponseOptions)
    (sp : SamplingParams) (prompt : List Char) (mitl : Bool) (d : Rat) :
    ∀ (pre : List (RequestOutput × Rat)) (st : StreamState)
      (e : RequestOutput) (t : Rat) (post : List (RequestOutput × Rat))
      (emits : List GenerationResponse) (ab cons : Nat),
    (∀ x ∈ pre, x.2 < d) → d ≤ t →
    generate_stream_go tok resp sp prompt mitl (some d)
      (pre ++ (e, t) :: post) st = some (emits, ab, cons) →
    ab = 1 ∧ cons = pre.length + 1 ∧
    ∃ o last, e.outputs.head? = some o ∧ emits.getLast? = some last ∧
      (o.finish_reason = none → last.stop_reason = .TIME_LIMIT) := by
  intro pre
  induction pre with
  | nil =>
    intro st e t post emits ab cons hpre ht hrun
    rw [List.nil_append] at hrun
    rw [generate_stream_go] at hrun
    simp only [Option.bind_eq_bind, Option.pure_def] at hrun
    obtain ⟨firstPart, hfp, hrun⟩ := Option.bind_eq_some.mp hrun
    obtain ⟨o, ho, hrun⟩ := Option.bind_eq_some.mp hrun
    have htl : (decide (d ≤ t)) = true := decide_eq_true ht
    simp only [htl, eq_self_iff_true, if_true] at hrun
    obtain ⟨dresp, hdr, hrun⟩ := Option.bind_eq_some.mp hrun
    rw [Option.some.injEq, Prod.mk.injEq, Prod.mk.injEq] at hrun
    obtain ⟨hemits, hab, hcons⟩ := hrun
    refine ⟨hab.symm, by simp [← hcons], o, dresp, ho, ?_, ?_⟩
    · rw [← hemits, List.getLast?_concat]
    · intro hf
      have h1 := (convert_output_fields tok o resp mitl true
        st.last_output_length st.last_token_count dresp hdr).1
      rw [h1]
      simp [convert_reason, hf]
  | cons ev rest ih =>
    intro st e t post emits ab cons hpre ht hrun
    obtain ⟨r, tr⟩ := ev
    have htr : tr < d := hpre (r, tr) (by simp)
    rw [List.cons_append] at hrun
    rw [generate_stream_go] at hrun
    simp only [Option.bind_eq_bind, Option.pure_def] at hrun
    obtain ⟨firstPart, hfp, hrun⟩ := Option.bind_eq_some.mp hrun
    obtain ⟨o, ho, hrun⟩ := Option.bind_eq_some.mp hrun
    have htl : (decide (d ≤ tr)) = false := decide_eq_false (not_le.mpr htr)
    simp only [htl, Bool.false_eq_true, if_false] at hrun
    obtain ⟨dresp, hdr, hrun⟩ := Option.bind_eq_some.mp hrun
    obtain ⟨x, hx, hrun⟩ := Option.bind_eq_some.mp hrun
    rw [Option.some.injEq, Prod.mk.injEq, Prod.mk.injEq] at hrun
    obtain ⟨hemits, hab, hcons⟩ := hrun
    obtain ⟨emits2, ab2, cons2⟩ := x
    dsimp only at hemits hab hcons hx
    obtain ⟨hab2, hcons2, o2, last, ho2, hlast, htlr⟩ :=
      ih _ e t post emits2 ab2 cons2 (fun x hx2 => hpre x (by simp [hx2]))
        ht hx
    refine ⟨by omega, by simp; omega, o2, last, ho2, ?_, htlr⟩
    rw [← hemits]
    rw [List.getLast?_append]
    have hcl : (dresp :: emits2).getLast? = some last := by
      have hsplit : dresp :: emits2 = [dresp] ++ emits2 := rfl
      rw [hsplit, List.getLast?_append, hlast]
      rfl
    rw [hcl]
    rfl

/-- C9: whenever the deadline is exceeded at a snapshot of the streaming
loop, exactly one abort call is issued to the engine, the response for
that snapshot is still emitted as the last emission (with stop reason
`TIME_LIMIT` when no finish condition is set), and no further snapshots
are consumed after it. -/
theorem stream_deadline_single_abort (tok : Nat → String)
    (resp : ResponseOptions) (sp : SamplingParams) (prompt : List Char)
    (mitl : Bool) (d : Rat) (pre : List (RequestOutput × Rat))
    (e : RequestOutput) (t : Rat) (post : List (RequestOutput × Rat))
    (emits : List GenerationResponse) (ab cons : Nat)
    (hpre : ∀ x ∈ pre, x.2 < d) (ht : d ≤ t)
    (hrun : generate_stream_run tok resp sp prompt mitl (some d)
      (pre ++ (e, t) :: post) = some (emits, ab, cons)) :
    ab = 1 ∧ cons = pre.length + 1 ∧
    ∃ o last, e.outputs.head? = some o ∧ emits.getLast? = some last ∧
      (o.finish_reason = none → last.stop_reason = .TIME_LIMIT) :=
  stream_go_deadline tok resp sp prompt mitl d pre _ e t post emits ab cons
    hpre ht hrun

/-- A later cumulative snapshot for the C9 witness stream. -/
def wOut2 : CompletionOutput :=
  { text := "abcd".toList, token_ids := [1, 2, 3], logprobs := none,
    finish_reason := none, has_stop_reason := true,
    stop_reason_attr := none }

def wRes2 : RequestOutput :=
  { prompt := none, prompt_token_ids := [9], prompt_logprobs := none,
    outputs := [wOut2] }

/-- Witness for C9: deadline 5, snapshots at times 3, 6 and 7; the loop
aborts once, consumes exactly two snapshots (the third is never consumed),
and the final emission reports `TIME_LIMIT`. -/
theorem stream_deadline_single_abort_witness :
    ∃ emits ab cons,
      generate_stream_run (fun n => toString n) cexResp cexSp
          "hi".toList false (some 5) [(wRes, 3), (wRes2, 6), (wRes2, 7)] =
        some (emits, ab, cons) ∧
      ab = 1 ∧ cons = 2 ∧
      (∃ o last, wRes2.outputs.head? = some o ∧
        emits.getLast? = some last ∧
        (o.finish_reason = none → last.stop_reason = .TIME_LIMIT)) := by
  refine ⟨_, _, _, rfl, ?_⟩
  have h := stream_deadline_single_abort (fun n => toString n) cexResp cexSp
    "hi".toList false 5 [(wRes, 3)] wRes2 6 [(wRes2, 7)] _ _ _
    (by decide) (by decide) rfl
  exact ⟨h.1, h.2.1, h.2.2⟩

/-! ## Claim C2: streaming delta completeness -/

/-- Relation between the cumulative logprob lists of two snapshots of one
stream: both absent, or the earlier a prefix of the later. -/
def LpRel : Option (List (Option LogprobMap)) →
    Option (List (Option LogprobMap)) → Prop
  | none, none => True
  | some a, some b => a <+: b
  | some _, none => False
  | none, some _ => False

instance : (a b : Option (List (Option LogprobMap))) → Decidable (LpRel a b)
  | none, none => isTrue trivial
  | some x, some y => inferInstanceAs (Decidable (x <+: y))
  | some _, none => isFalse (fun h => h)
  | none, some _ => isFalse (fun h => h)

/-- The engine's per-stream ordering guarantee between two cumulative
snapshots: text, token ids and logprob lists all extend monotonically. -/
def OutRel (a b : CompletionOutput) : Prop :=
  a.text <+: b.text ∧ a.token_ids <+: b.token_ids ∧
    LpRel a.logprobs b.logprobs

instance (a b : CompletionOutput) : Decidable (OutRel a b) := by
  unfold OutRel
  infer_instance

lemma LpRel_trans (a b c : Option (List (Option LogprobMap)))
    (h1 : LpRel a b) (h2 : LpRel b c) : LpRel a c := by
  cases a with
  | none =>
    cases b with
    | none =>
      cases c with
      | none => trivial
      | some _ => exact h2.elim
    | some _ => exact h1.elim
  | some x =>
    cases b with
    | none => exact h1.elim
    | some y =>
      cases c with
      | none => exact h2.elim
      | some z => exact (show x <+: y from h1).trans (show y <+: z from h2)

instance : IsTrans CompletionOutput OutRel :=
  ⟨fun _ _ _ hab hbc => ⟨hab.1.trans hbc.1, hab.2.1.trans hbc.2.1,
    LpRel_trans _ _ _ hab.2.2 hbc.2.2⟩⟩

/-- A snapshot's logprob list, when present, runs parallel to its token
ids (one map per generated token). -/
def OutputWF (o : CompletionOutput) : Prop :=
  match o.logprobs with
  | none => True
  | some l => l.length = o.token_ids.length

instance (o : CompletionOutput) : Decidable (OutputWF o) :=
  match h : o.logprobs with
  | none => isTrue (by unfold OutputWF; rw [h]; trivial)
  | some l =>
    decidable_of_iff (l.length = o.token_ids.length)
      (by unfold OutputWF; rw [h])

/-- Dropping through a prefix: the tail of the longer list from position
`n` splits at the prefix boundary. -/
lemma drop_split_at_boundary {α : Type} {u v : List α} (h : u <+: v)
    {n : Nat} (hn : n ≤ u.length) :
    v.drop n = u.drop n ++ v.drop u.length := by
  obtain ⟨w, rfl⟩ := h
  rw [List.drop_append_of_le_length hn, List.drop_left]

/-- `convert_tokens` in terms of list drops. -/
lemma convert_tokens_eq (tok : Nat → String) (ilp irk : Bool) (n : Nat)
    (ids : List Nat) (lps : Option (List (Option LogprobMap))) (off : Nat) :
    convert_tokens tok ilp irk n ids lps off =
      match lps with
      | none => some ((ids.drop off).map (fun tid =>
          ({ text := tok tid, logprob := none, rank := none,
             top_tokens := [] } : TokenInfo)))
      | some l => convert_tokens_go tok ilp irk n (ids.drop off)
          (l.drop off) := by
  by_cases h : off = 0
  · subst h
    cases lps <;> simp [convert_tokens]
  · cases lps <;> simp [convert_tokens, h]

/-- The conversion loop distributes over parallel appends. -/
lemma convert_go_append (tok : Nat → String) (ilp irk : Bool) (n : Nat) :
    ∀ (ids1 : List Nat) (lps1 : List (Option LogprobMap))
      (r1 : List TokenInfo) (ids2 : List Nat)
      (lps2 : List (Option LogprobMap)),
    ids1.length = lps1.length →
    convert_tokens_go tok ilp irk n ids1 lps1 = some r1 →
    convert_tokens_go tok ilp irk n (ids1 ++ ids2) (lps1 ++ lps2) =
      (convert_tokens_go tok ilp irk n ids2 lps2).map (fun r2 => r1 ++ r2) := by
  intro ids1
  induction ids1 with
  | nil =>
    intro lps1 r1 ids2 lps2 hlen h
    rw [List.length_nil] at hlen
    obtain rfl : lps1 = [] := List.eq_nil_of_length_eq_zero hlen.symm
    rw [convert_tokens_go] at h
    rw [Option.some.injEq] at h
    subst h
    simp
  | cons tid ids1' ih =>
    intro lps1 r1 ids2 lps2 hlen h
    cases lps1 with
    | nil => simp at hlen
    | cons lpm lps1' =>
      rw [convert_tokens_go] at h
      simp only [Option.bind_eq_bind, Option.pure_def] at h
      obtain ⟨info, hinfo, h⟩ := Option.bind_eq_some.mp h
      obtain ⟨rest, hrest, h⟩ := Option.bind_eq_some.mp h
      rw [Option.some.injEq] at h
      subst h
      rw [List.cons_append, List.cons_append]
      rw [convert_tokens_go]
      simp only [Option.bind_eq_bind, Option.pure_def]
      rw [hinfo, Option.some_bind]
      rw [ih lps1' rest ids2 lps2 (by simpa using hlen) hrest]
      cases hgo : convert_tokens_go tok ilp irk n ids2 lps2 <;>
        simp [hgo]

/-- Fields of a successful `_convert_output` when generated-token details
are requested. -/
lemma convert_output_gen (tok : Nat → String) (output : CompletionOutput)
    (resp : ResponseOptions) (mitl tlr : Bool) (tso kso : Nat)
    (r : GenerationResponse)
    (hg : resp.generated_tokens = true)
    (h : convert_output tok output resp mitl tlr tso kso = some r) :
    r.text = output.text.drop tso ∧
    convert_tokens tok resp.token_logprobs resp.token_ranks
      resp.top_n_tokens output.token_ids output.logprobs kso =
      some r.tokens := by
  unfold convert_output at h
  dsimp only at h
  rw [if_pos hg] at h
  obtain ⟨tis, htis, hfb⟩ := Option.map_eq_some'.mp h
  rw [← hfb]
  exact ⟨rfl, by rw [htis]⟩

/-- A conversion at an inner offset prepends to the conversion from the
prefix boundary on, for snapshots related by the engine guarantee. -/
lemma convert_tokens_split (tok : Nat → String) (ilp irk : Bool) (n : Nat)
    (o o2 : CompletionOutput) (c : Nat)
    (hrel : OutRel o o2) (hwf1 : OutputWF o)
    (hc : c ≤ o.token_ids.length)
    (r1 r2 : List TokenInfo)
    (h1 : convert_tokens tok ilp irk n o.token_ids o.logprobs c = some r1)
    (h2 : convert_tokens tok ilp irk n o2.token_ids o2.logprobs
      o.token_ids.length = some r2) :
    convert_tokens tok ilp irk n o2.token_ids o2.logprobs c =
      some (r1 ++ r2) := by
  obtain ⟨-, hids, hlp⟩ := hrel
  rw [convert_tokens_eq] at h1 h2 ⊢
  cases hl1 : o.logprobs with
  | none =>
    cases hl2 : o2.logprobs with
    | none =>
      rw [hl1] at h1
      rw [hl2] at h2
      dsimp only at h1 h2 ⊢
      rw [Option.some.injEq] at h1 h2
      rw [drop_split_at_boundary hids hc, List.map_append, h1, h2]
    | some lb =>
      rw [hl1, hl2] at hlp
      exact (show False from hlp).elim
  | some la =>
    cases hl2 : o2.logprobs with
    | none =>
      rw [hl1, hl2] at hlp
      exact (show False from hlp).elim
    | some lb =>
      rw [hl1, hl2] at hlp
      have hpre : la <+: lb := hlp
      have hla_len : la.length = o.token_ids.length := by
        unfold OutputWF at hwf1
        rw [hl1] at hwf1
        exact hwf1
      rw [hl1] at h1
      rw [hl2] at h2
      dsimp only at h1 h2 ⊢
      have hsplit_ids : o2.token_ids.drop c =
          o.token_ids.drop c ++ o2.token_ids.drop o.token_ids.length :=
        drop_split_at_boundary hids hc
      have hsplit_lps : lb.drop c =
          la.drop c ++ lb.drop o.token_ids.length := by
        have h := drop_split_at_boundary hpre (by omega :
          c ≤ la.length)
        rw [hla_len] at h
        exact h
      rw [hsplit_ids, hsplit_lps]
      have hlen : (o.token_ids.drop c).length = (la.drop c).length := by
        simp [hla_len]
      rw [convert_go_append tok ilp irk n _ _ r1 _ _ hlen h1, h2]
      rfl

lemma stream_go_join (tok : Nat → String) (resp : ResponseOptions)
    (sp : SamplingParams) (prompt : List Char) (mitl : Bool) :
    ∀ (events : List (RequestOutput × Rat)) (os : List CompletionOutput)
      (st : StreamState) (emits : List GenerationResponse) (ab cons : Nat),
    resp.generated_tokens = true →
    events.map (fun e => e.1.outputs.head?) = os.map some →
    os.Chain' OutRel →
    (∀ o ∈ os, OutputWF o) →
    ∀ (hne : os ≠ []),
    st.last_output_length ≤ (os.head hne).text.length →
    st.last_token_count ≤ (os.head hne).token_ids.length →
    generate_stream_go tok resp sp prompt mitl none events st =
      some (emits, ab, cons) →
    ((emits.drop (if st.first then 1 else 0)).map (fun r => r.text)).flatten =
      (os.getLast hne).text.drop st.last_output_length ∧
    convert_tokens tok resp.token_logprobs resp.token_ranks
      resp.top_n_tokens (os.getLast hne).token_ids (os.getLast hne).logprobs
      st.last_token_count =
      some (((emits.drop (if st.first then 1 else 0)).map
        (fun r => r.tokens)).flatten) := by
  intro events
  induction events with
  | nil =>
    intro os st emits ab cons hg hos hchain hwf hne hlo htc hrun
    rw [List.map_nil] at hos
    cases os with
    | nil => exact absurd rfl hne
    | cons o os2 => simp at hos
  | cons ev rest ih =>
    intro os st emits ab cons hg hos hchain hwf hne hlo htc hrun
    obtain ⟨result, now⟩ := ev
    cases os with
    | nil => exact absurd rfl hne
    | cons o os2 =>
    simp only [List.map_cons, List.cons.injEq] at hos
    obtain ⟨ho_head, hos_tail⟩ := hos
    rw [generate_stream_go] at hrun
    simp only [Option.bind_eq_bind, Option.pure_def, Bool.false_eq_true,
      if_false] at hrun
    obtain ⟨firstPart, hfp, hrun⟩ := Option.bind_eq_some.mp hrun
    obtain ⟨o', ho', hrun⟩ := Option.bind_eq_some.mp hrun
    rw [ho_head, Option.some.injEq] at ho'
    subst ho'
    obtain ⟨dresp, hdr, hrun⟩ := Option.bind_eq_some.mp hrun
    obtain ⟨x, hx, hrun⟩ := Option.bind_eq_some.mp hrun
    rw [Option.some.injEq, Prod.mk.injEq, Prod.mk.injEq] at hrun
    obtain ⟨hemits, hab, hcons⟩ := hrun
    obtain ⟨emits2, ab2, cons2⟩ := x
    dsimp only at hemits hab hcons hx
    have hfplen : firstPart.length = (if st.first then 1 else 0) := by
      unfold firstEmit at hfp
      split at hfp
      · rename_i hfirst
        obtain ⟨fr, -, hfr⟩ := Option.map_eq_some'.mp hfp
        rw [← hfr, if_pos hfirst]
        rfl
      · rename_i hfirst
        rw [Option.some.injEq] at hfp
        rw [← hfp, if_neg hfirst]
        rfl
    have hdrop : emits.drop (if st.first then 1 else 0) = dresp :: emits2 := by
      rw [← hemits, ← hfplen]
      exact List.drop_left _ _
    have hdg := convert_output_gen tok o resp mitl false st.last_output_length
      st.last_token_count dresp hg hdr
    cases os2 with
    | nil =>
      obtain rfl : rest = [] := by
        cases rest with
        | nil => rfl
        | cons a b => simp at hos_tail
      rw [generate_stream_go] at hx
      rw [Option.some.injEq, Prod.mk.injEq, Prod.mk.injEq] at hx
      obtain ⟨hx1, -, -⟩ := hx
      rw [hdrop, ← hx1]
      constructor
      · simp [hdg.1]
      · simpa using hdg.2
    | cons o2 os3 =>
      have hrne : rest ≠ [] := by
        intro h
        subst h
        simp at hos_tail
      have hchain' := hchain
      rw [List.chain'_cons] at hchain'
      obtain ⟨hrel12, hchain2⟩ := hchain'
      have hih := ih (o2 :: os3)
        { first := false, last_output_length := o.text.length,
          last_token_count := o.token_ids.length }
        emits2 ab2 cons2 hg hos_tail hchain2
        (fun z hz => hwf z (List.mem_cons_of_mem o hz))
        (by simp)
        (by simpa using hrel12.1.length_le)
        (by simpa using hrel12.2.1.length_le)
        hx
      simp only [Bool.false_eq_true, if_false, List.drop_zero] at hih
      have hrelLast : OutRel o ((o2 :: os3).getLast (by simp)) := by
        have hp : (o :: o2 :: os3).Pairwise OutRel :=
          List.chain'_iff_pairwise.mp hchain
        exact (List.pairwise_cons.mp hp).1 _ (List.getLast_mem _)
      have hglshow : ((o :: o2 :: os3).getLast hne) =
          ((o2 :: os3).getLast (by simp)) := rfl
      rw [hdrop, hglshow]
      constructor
      · rw [List.map_cons, List.flatten_cons, hdg.1, hih.1]
        exact (drop_split_at_boundary hrelLast.1 hlo).symm
      · rw [List.map_cons, List.flatten_cons]
        exact convert_tokens_split tok resp.token_logprobs resp.token_ranks
          resp.top_n_tokens o _ st.last_token_count hrelLast
          (hwf o (List.mem_cons_self o _)) htc dresp.tokens _ hdg.2 hih.2

/-- C2: for a streamed generation with generated-token details requested, in
which the engine's cumulative snapshots extend monotonically (text, token
ids and logprob lists), concatenating the text fields of the delta
responses (all emissions after the first, input-details, response) in
emission order equals the final cumulative text, and concatenating the
emitted token-detail lists equals the token-detail conversion of the full
final token sequence — no gap and no overlap. -/
theorem stream_delta_completeness (tok : Nat → String)
    (resp : ResponseOptions) (sp : SamplingParams) (prompt : List Char)
    (mitl : Bool) (events : List (RequestOutput × Rat))
    (os : List CompletionOutput) (emits : List GenerationResponse)
    (ab cons : Nat)
    (hg : resp.generated_tokens = true)
    (hos : events.map (fun e => e.1.outputs.head?) = os.map some)
    (hchain : os.Chain' OutRel)
    (hwf : ∀ o ∈ os, OutputWF o)
    (hne : os ≠ [])
    (hrun : generate_stream_run tok resp sp prompt mitl none events =
      some (emits, ab, cons)) :
    ((emits.drop 1).map (fun r => r.text)).flatten =
      (os.getLast hne).text ∧
    convert_tokens tok resp.token_logprobs resp.token_ranks
      resp.top_n_tokens (os.getLast hne).token_ids
      (os.getLast hne).logprobs 0 =
      some (((emits.drop 1).map (fun r => r.tokens)).flatten) := by
  have h := stream_go_join tok resp sp prompt mitl events os
    { first := true, last_output_length := 0, last_token_count := 0 }
    emits ab cons hg hos hchain hwf hne (Nat.zero_le _) (Nat.zero_le _) hrun
  simpa using h

def c2Out1 : CompletionOutput :=
  { text := "ab".toList, token_ids := [1, 2], logprobs := none,
    finish_reason := none, has_stop_reason := true,
    stop_reason_attr := none }

def c2Out2 : CompletionOutput :=
  { text := "abcd".toList, token_ids := [1, 2, 3], logprobs := none,
    finish_reason := some "length", has_stop_reason := true,
    stop_reason_attr := none }

def c2Res1 : RequestOutput :=
  { prompt := none, prompt_token_ids := [9], prompt_logprobs := none,
    outputs := [c2Out1] }

def c2Res2 : RequestOutput :=
  { prompt := none, prompt_token_ids := [9], prompt_logprobs := none,
    outputs := [c2Out2] }

def c2Resp : ResponseOptions :=
  { input_text := false, input_tokens := false, generated_tokens := true,
    token_logprobs := false, token_ranks := false, top_n_tokens := 0 }

/-- Witness for C2: two snapshots "ab" then "abcd"; the delta texts
concatenate back to "abcd" and the delta token details concatenate to the
conversion of the full final sequence. -/
theorem stream_delta_completeness_witness :
    ∃ emits ab cons,
      generate_stream_run (fun n => toString n) c2Resp cexSp "hi".toList
          true none [(c2Res1, 0), (c2Res2, 1)] = some (emits, ab, cons) ∧
      ((emits.drop 1).map (fun r => r.text)).flatten = "abcd".toList ∧
      convert_tokens (fun n => toString n) c2Resp.token_logprobs
          c2Resp.token_ranks c2Resp.top_n_tokens c2Out2.token_ids
          c2Out2.logprobs 0 =
        some (((emits.drop 1).map (fun r => r.tokens)).flatten) := by
  refine ⟨_, _, _, rfl, ?_⟩
  have hchain : List.Chain' OutRel [c2Out1, c2Out2] :=
    List.chain'_cons.mpr
      ⟨⟨⟨['c', 'd'], rfl⟩, ⟨[3], rfl⟩, trivial⟩, List.chain'_singleton _⟩
  have h := stream_delta_completeness (fun n => toString n) c2Resp cexSp
    "hi".toList true [(c2Res1, 0), (c2Res2, 1)] [c2Out1, c2Out2] _ _ _
    rfl (by decide) hchain (by decide) (by decide) rfl
  exact ⟨h.1, h.2⟩

end VllmGrpc
